import Mathlib

/-!
Verification of the problem-recommendation engine of a chat bot
(`src/main.py`): catalog caching, tier-based problem selection,
profile-statistics extraction, and the per-user daily session store.

The Python source is shallowly embedded: dictionaries of remote JSON
payloads become structures with `Option` fields (a `none` field models a
missing key, so that `dict.get(key, default)` becomes `Option.getD`),
the module-level mutable maps become explicit state records threaded
through the handlers, each remote round trip becomes an input parameter
holding what the network would have returned, and each call to the
uniform random choice over a list becomes an input index reduced modulo
the list length.
-/

/-- A catalog entry, as returned by the remote catalog query
(`problemsetQuestionList.questions`). Fields the source reads with
`dict.get` are `Option`s; `none` models an absent key. Acceptance rates
are rationals in the embedding. -/
structure Problem where
  titleSlug : Option String
  title : Option String
  frontendQuestionId : Option Nat
  difficulty : Option String
  acRate : Option ℚ
  paidOnly : Option Bool
  topicTags : List String
deriving DecidableEq, Repr

/-- State of `LeetCodeService`: the module holds `problems_cache`
(initially `[]`) and `cache_loaded` (initially `false`). -/
structure ServiceState where
  problems_cache : List Problem
  cache_loaded : Bool
deriving DecidableEq, Repr

/-- What a single catalog fetch round trip produced.
`success status questions` models a response whose JSON body parsed:
`questions` is the list extracted by
`data.get('data', {}).get('problemsetQuestionList', {}).get('questions', [])`,
with `none` when the nested keys are missing (a malformed payload).
`failure` models a network error, timeout, or any exception raised while
handling the response (the `except` branch of the source). -/
inductive FetchResult where
  | success (status : Nat) (questions : Option (List Problem))
  | failure
deriving DecidableEq, Repr

/-- `LeetCodeService.get_all_problems` (src/main.py lines 38-96).
Returns the cached list when `cache_loaded` holds and the cache is
non-empty; otherwise consumes one fetch: on status 200 it stores the
extracted list (empty when the payload is malformed) and marks the cache
loaded; on any other status or on failure it returns `[]` leaving the
state untouched. -/
def get_all_problems (st : ServiceState) (fetch : FetchResult) :
    ServiceState × List Problem :=
  if st.cache_loaded && !st.problems_cache.isEmpty then
    (st, st.problems_cache)
  else
    match fetch with
    | .success status questions =>
        if status == 200 then
          let problems := questions.getD []
          ({ problems_cache := problems, cache_loaded := true }, problems)
        else
          (st, [])
    | .failure => (st, [])

/-- `random.choice(l)` modelled by an input index taken modulo the list
length; `none` only when the list is empty. -/
def listChoice (l : List α) (i : Nat) : Option α :=
  l.get? (i % l.length)

/-- The filter `not p.get('paidOnly', True)` (src/main.py lines 104, 209). -/
def isFreeProblem (p : Problem) : Bool :=
  !(p.paidOnly.getD true)

/-- `free_problems = [p for p in problems if not p.get('paidOnly', True)]`
(src/main.py line 104). -/
def free_problems (problems : List Problem) : List Problem :=
  problems.filter isFreeProblem

/-- The `speed_difficulties` list chosen from `total_solved`
(src/main.py lines 111-122). -/
def speed_difficulties (total_solved : Nat) : List String :=
  if total_solved < 50 then ["Easy"]
  else if total_solved < 150 then ["Easy", "Medium"]
  else if total_solved < 300 then ["Medium"]
  else ["Medium", "Hard"]

/-- The `knowledge_difficulties` list chosen from `total_solved`
(src/main.py lines 111-122). -/
def knowledge_difficulties (total_solved : Nat) : List String :=
  if total_solved < 50 then ["Easy", "Medium"]
  else if total_solved < 150 then ["Medium"]
  else if total_solved < 300 then ["Medium", "Hard"]
  else ["Hard"]

/-- `speed_candidates` (src/main.py lines 125-128): free problems whose
difficulty lies in the speed set and whose acceptance rate exceeds 40.
`p.get('difficulty') in speed_difficulties` is false when the key is
missing, hence `Option.any`. -/
def speed_candidates (free : List Problem) (total_solved : Nat) : List Problem :=
  free.filter fun p =>
    p.difficulty.any (fun d => (speed_difficulties total_solved).contains d)
      && decide (p.acRate.getD 0 > 40)

/-- `knowledge_candidates` (src/main.py lines 131-134): free problems
whose difficulty lies in the knowledge set and whose acceptance rate is
below 60. -/
def knowledge_candidates (free : List Problem) (total_solved : Nat) : List Problem :=
  free.filter fun p =>
    p.difficulty.any (fun d => (knowledge_difficulties total_solved).contains d)
      && decide (p.acRate.getD 0 < 60)

/-- `random.choice(candidates) if candidates else random.choice(fallback)`
(src/main.py lines 136-137). -/
def pickFrom (candidates fallback : List Problem) (i : Nat) : Option Problem :=
  if candidates.isEmpty then listChoice fallback i else listChoice candidates i

/-- `LeetCodeService.get_personalized_problems` (src/main.py lines
98-142) after the catalog has been obtained: takes the fetched problem
list and `total_solved` (the only stats field the selector reads), plus
the two random draws. Returns `none` exactly when the source returns the
empty dict. -/
def get_personalized_problems (problems : List Problem) (total_solved : Nat)
    (iSpeed iKnow : Nat) : Option (Problem × Problem) :=
  if problems.isEmpty then none
  else
    let free := free_problems problems
    if free.isEmpty then none
    else
      match pickFrom (speed_candidates free total_solved) free iSpeed,
            pickFrom (knowledge_candidates free total_solved) free iKnow with
      | some s, some k => some (s, k)
      | _, _ => none

/-- `LeetCodeService.get_random_problem` (src/main.py lines 202-212)
after the catalog has been obtained: the optional difficulty filter is
case-insensitive and is dropped when it empties the list; then the pool
is restricted to free problems and one uniform draw is taken. -/
def get_random_problem (problems : List Problem) (difficulty : Option String)
    (i : Nat) : Option Problem :=
  if problems.isEmpty then none
  else
    let pool :=
      match difficulty with
      | some d =>
          let filtered := problems.filter
            (fun (p : Problem) => (p.difficulty.getD "").toUpper == d.toUpper)
          if filtered.isEmpty then problems else filtered
      | none => problems
    let free := pool.filter isFreeProblem
    if free.isEmpty then none
    else listChoice free i

/-- One entry of `submitStats.acSubmissionNum` in the remote profile
payload: a difficulty label with its accepted count (the source reads
only `difficulty` and `count`; `submissions` is carried along). -/
structure SubmissionRecord where
  difficulty : String
  count : Nat
  submissions : Nat
deriving DecidableEq, Repr

/-- The remote profile payload as far as `extract_user_stats` reads it:
the `acSubmissionNum` list (with `none` for a missing `submitStats` or
`acSubmissionNum` key, which the source defaults to `[]`) and the nested
`profile.ranking` field (`none` models the `'N/A'` default). -/
structure RawProfile where
  acSubmissionNum : Option (List SubmissionRecord)
  ranking : Option Int
deriving DecidableEq, Repr

/-- The normalized statistics returned by `extract_user_stats`;
`ranking = none` renders as `'N/A'`. -/
structure UserStats where
  total_solved : Nat
  easy_solved : Nat
  medium_solved : Nat
  hard_solved : Nat
  ranking : Option Int
deriving DecidableEq, Repr

/-- The loop body of `extract_user_stats` (src/main.py lines 314-320):
the accumulator is `(easy_solved, medium_solved, hard_solved)` and a
record overwrites the component its difficulty label names. -/
def statStep (acc : Nat × Nat × Nat) (stat : SubmissionRecord) : Nat × Nat × Nat :=
  if stat.difficulty == "Easy" then (stat.count, acc.2.1, acc.2.2)
  else if stat.difficulty == "Medium" then (acc.1, stat.count, acc.2.2)
  else if stat.difficulty == "Hard" then (acc.1, acc.2.1, stat.count)
  else acc

/-- `extract_user_stats` (src/main.py lines 308-331). -/
def extract_user_stats (user_data : RawProfile) : UserStats :=
  let ac_stats := user_data.acSubmissionNum.getD []
  let counts := ac_stats.foldl statStep (0, 0, 0)
  { total_solved := counts.1 + counts.2.1 + counts.2.2
    easy_solved := counts.1
    medium_solved := counts.2.1
    hard_solved := counts.2.2
    ranking := user_data.ranking }

/-- One value of the `user_daily_problems` map (src/main.py lines
414-421): the date string, the username, the two chosen problems, and
the two solved flags. -/
structure DailySession where
  date : String
  username : String
  speed_problem : Problem
  knowledge_problem : Problem
  solved_speed : Bool
  solved_knowledge : Bool
deriving DecidableEq, Repr

/-- A Python dict keyed by user id, as an association list with unique
keys maintained by `dictInsert`. -/
def dictLookup (d : List (Nat × α)) (k : Nat) : Option α :=
  (d.find? (fun p => p.1 == k)).map (·.2)

/-- `d[k] = v` on a Python dict: replace the value at an existing key in
place, else append the new binding. -/
def dictInsert (d : List (Nat × α)) (k : Nat) (v : α) : List (Nat × α) :=
  if d.any (fun p => p.1 == k) then
    d.map (fun p => if p.1 == k then (k, v) else p)
  else
    d ++ [(k, v)]

/-- `user_chat_ids.add(x)` on a Python set of ids. -/
def setAdd (s : List Nat) (x : Nat) : List Nat :=
  if s.contains x then s else s ++ [x]

/-- The three module-level maps (src/main.py lines 28-30) together with
the `LeetCodeService` cache state. `user_profiles` stores the username
and the last computed stats. -/
structure BotState where
  user_chat_ids : List Nat
  user_daily_problems : List (Nat × DailySession)
  user_profiles : List (Nat × (String × UserStats))
  service : ServiceState
deriving DecidableEq, Repr

/-- The observable outcome of the `/recommended2` handler: which message
path was taken and, for the two success paths, the problems shown. -/
inductive RecOutcome where
  | missingArg
  | existing (d : DailySession)
  | userNotFound
  | noProblems
  | fresh (speed knowledge : Problem)
deriving DecidableEq, Repr

/-- The tail of `get_recommended_problems` past the same-day check
(src/main.py lines 396-423): fetch the profile (the `profileResp`
parameter holds what the remote returned, `none` for an absent or
private user), store the profile record, obtain the catalog through the
cache, select the pair, and store the fresh session. -/
def recommendFresh (st : BotState) (user_id : Nat) (today username : String)
    (profileResp : Option RawProfile) (fetch : FetchResult) (iSpeed iKnow : Nat) :
    BotState × RecOutcome :=
  match profileResp with
  | none => (st, .userNotFound)
  | some raw =>
      let user_stats := extract_user_stats raw
      let st₁ := { st with
        user_profiles := dictInsert st.user_profiles user_id (username, user_stats) }
      let fetched := get_all_problems st₁.service fetch
      let st₂ := { st₁ with service := fetched.1 }
      match get_personalized_problems fetched.2 user_stats.total_solved iSpeed iKnow with
      | none => (st₂, .noProblems)
      | some (s, k) =>
          let session : DailySession :=
            { date := today, username := username, speed_problem := s
              knowledge_problem := k, solved_speed := false, solved_knowledge := false }
          ({ st₂ with
              user_daily_problems := dictInsert st₂.user_daily_problems user_id session },
           .fresh s k)

/-- `get_recommended_problems` (src/main.py lines 380-423). `args` is
the command argument list; `today` is the current date rendered as
`%Y-%m-%d`. With no argument the handler replies with usage text; with a
stored session whose date equals `today` it replies from the store with
no remote call; otherwise it runs `recommendFresh`. -/
def get_recommended_problems (st : BotState) (user_id : Nat) (today : String)
    (args : List String) (profileResp : Option RawProfile) (fetch : FetchResult)
    (iSpeed iKnow : Nat) : BotState × RecOutcome :=
  match args with
  | [] => (st, .missingArg)
  | username :: _ =>
      let st₀ := { st with user_chat_ids := setAdd st.user_chat_ids user_id }
      match dictLookup st₀.user_daily_problems user_id with
      | some d =>
          if d.date == today then (st₀, .existing d)
          else recommendFresh st₀ user_id today username profileResp fetch iSpeed iKnow
      | none => recommendFresh st₀ user_id today username profileResp fetch iSpeed iKnow

/-- The observable outcome of the `/solved` handler. `usage` is the
bad-argument reply; `noSession` the reply for a user with no stored
entry; `staleSession` the reply when the stored date is not today;
`marked b` the success reply, with `b` true when the completion message
also fires. -/
inductive SolvedOutcome where
  | usage
  | noSession
  | staleSession
  | marked (completedBoth : Bool)
deriving DecidableEq, Repr

/-- Python `str.lower()`, as character-wise lowercasing of the
underlying character list. -/
def strLower (s : String) : String :=
  ⟨s.data.map Char.toLower⟩

/-- `mark_solved` (src/main.py lines 472-500). -/
def mark_solved (st : BotState) (user_id : Nat) (args : List String)
    (today : String) : BotState × SolvedOutcome :=
  match args with
  | [] => (st, .usage)
  | a :: _ =>
      let problem_type := strLower a
      if problem_type != "speed" && problem_type != "knowledge" then (st, .usage)
      else
        match dictLookup st.user_daily_problems user_id with
        | none => (st, .noSession)
        | some d =>
            if d.date != today then (st, .staleSession)
            else
              let d' :=
                if problem_type == "speed" then { d with solved_speed := true }
                else { d with solved_knowledge := true }
              ({ st with
                  user_daily_problems := dictInsert st.user_daily_problems user_id d' },
               .marked (d'.solved_speed && d'.solved_knowledge))

/-! ## Helper lemmas -/

theorem listChoice_mem {l : List α} {i : Nat} {x : α}
    (h : listChoice l i = some x) : x ∈ l :=
  List.get?_mem h

theorem pickFrom_mem_left {c f : List Problem} {i : Nat} {x : Problem}
    (hc : c ≠ []) (h : pickFrom c f i = some x) : x ∈ c := by
  unfold pickFrom at h
  rw [if_neg (by simpa [List.isEmpty_iff] using hc)] at h
  exact listChoice_mem h

theorem pickFrom_mem {c f : List Problem} {i : Nat} {x : Problem}
    (h : pickFrom c f i = some x) : x ∈ c ∨ x ∈ f := by
  unfold pickFrom at h
  by_cases hc : c.isEmpty
  · rw [if_pos hc] at h
    exact Or.inr (listChoice_mem h)
  · rw [if_neg hc] at h
    exact Or.inl (listChoice_mem h)

theorem isFreeProblem_iff (p : Problem) :
    isFreeProblem p = true ↔ p.paidOnly = some false := by
  unfold isFreeProblem
  rcases p.paidOnly with _ | b
  · simp
  · cases b <;> simp

theorem get_personalized_problems_eq_some {problems : List Problem}
    {total_solved iSpeed iKnow : Nat} {s k : Problem}
    (h : get_personalized_problems problems total_solved iSpeed iKnow = some (s, k)) :
    pickFrom (speed_candidates (free_problems problems) total_solved)
        (free_problems problems) iSpeed = some s ∧
    pickFrom (knowledge_candidates (free_problems problems) total_solved)
        (free_problems problems) iKnow = some k := by
  unfold get_personalized_problems at h
  by_cases h1 : problems.isEmpty
  · rw [if_pos h1] at h; exact absurd h (by simp)
  · rw [if_neg h1] at h
    by_cases h2 : (free_problems problems).isEmpty
    · rw [if_pos h2] at h; exact absurd h (by simp)
    · rw [if_neg h2] at h
      rcases hs : pickFrom (speed_candidates (free_problems problems) total_solved)
          (free_problems problems) iSpeed with _ | s'
      · rw [hs] at h; exact absurd h (by simp)
      · rcases hk : pickFrom (knowledge_candidates (free_problems problems) total_solved)
            (free_problems problems) iKnow with _ | k'
        · rw [hs, hk] at h; exact absurd h (by simp)
        · rw [hs, hk] at h
          simp only [Option.some.injEq, Prod.mk.injEq] at h
          exact ⟨by rw [h.1], by rw [h.2]⟩

/-! ## C5: failed catalog fetch -/

/-- C5 counterexample: on a status-200 response whose payload lacks the
question list, `get_all_problems` does return the empty sequence, but it
marks the cache loaded — it does not leave the cache state as not
loaded, contrary to the claim. -/
theorem get_all_problems_malformed_marks_loaded :
    (get_all_problems ⟨[], false⟩ (.success 200 none)).2 = [] ∧
    (get_all_problems ⟨[], false⟩ (.success 200 none)).1.cache_loaded = true :=
  ⟨rfl, rfl⟩

/-- C5 (amended): with no non-empty loaded cache, a network error or a
non-200 status makes `get_all_problems` return `[]` and leave the state
unchanged; a 200 response with a malformed payload makes it return `[]`
and store the empty list with the loaded mark set, after which a later
call still issues the fetch again (a successful refetch fills the
cache), because the cache-hit test also requires a non-empty cache. -/
theorem get_all_problems_failure_retries (st : ServiceState) (status : Nat)
    (q : Option (List Problem))
    (hmiss : ¬(st.cache_loaded = true ∧ st.problems_cache ≠ [])) :
    get_all_problems st .failure = (st, []) ∧
    (status ≠ 200 → get_all_problems st (.success status q) = (st, [])) ∧
    get_all_problems st (.success 200 none) = (⟨[], true⟩, []) ∧
    (∀ ps, get_all_problems ⟨[], true⟩ (.success 200 (some ps)) = (⟨ps, true⟩, ps)) := by
  have hcond : (st.cache_loaded && !st.problems_cache.isEmpty) = false := by
    rcases hl : st.cache_loaded with _ | _
    · rfl
    · rcases hpc : st.problems_cache with _ | ⟨p, t⟩
      · rfl
      · exact absurd ⟨hl, by rw [hpc]; simp⟩ hmiss
  refine ⟨?_, ?_, ?_, ?_⟩
  · unfold get_all_problems
    rw [hcond]; rfl
  · intro hstatus
    simp [get_all_problems, hcond, hstatus]
  · unfold get_all_problems
    rw [hcond]; rfl
  · intro ps
    rfl

/-- C5 witness: instantiation at the fresh state and a 500 status. -/
theorem get_all_problems_failure_retries_w :
    get_all_problems ⟨[], false⟩ .failure = (⟨[], false⟩, []) ∧
    get_all_problems ⟨[], false⟩ (.success 500 none) = (⟨[], false⟩, []) := by
  have h := get_all_problems_failure_retries ⟨[], false⟩ 500 none (by simp)
  exact ⟨h.1, h.2.1 (by decide)⟩

/-! ## C6: cache hit -/

/-- C6: with a non-empty loaded cache, `get_all_problems` returns the
cached sequence and leaves the state unchanged, independently of what
the network would have returned (no fetch is issued); hence a second
consecutive call returns the same sequence again. -/
theorem get_all_problems_cache_hit (st : ServiceState) (f f₂ : FetchResult)
    (hl : st.cache_loaded = true) (hne : st.problems_cache ≠ []) :
    get_all_problems st f = (st, st.problems_cache) ∧
    get_all_problems (get_all_problems st f).1 f₂ = (st, st.problems_cache) := by
  have hcond : (st.cache_loaded && !st.problems_cache.isEmpty) = true := by
    rw [hl]
    simp only [Bool.true_and, Bool.not_eq_true']
    rw [← Bool.not_eq_true, List.isEmpty_iff]
    exact hne
  have h1 : get_all_problems st f = (st, st.problems_cache) := by
    unfold get_all_problems
    rw [hcond]; rfl
  have h2 : get_all_problems st f₂ = (st, st.problems_cache) := by
    unfold get_all_problems
    rw [hcond]; rfl
  rw [h1]
  exact ⟨rfl, h2⟩

/-- C6 witness: a loaded one-problem cache is served on both calls with
the fetch outcome irrelevant. -/
theorem get_all_problems_cache_hit_w :
    get_all_problems ⟨[⟨none, none, none, some "Easy", some 50, some false, []⟩], true⟩
        .failure
      = (⟨[⟨none, none, none, some "Easy", some 50, some false, []⟩], true⟩,
         [⟨none, none, none, some "Easy", some 50, some false, []⟩]) :=
  (get_all_problems_cache_hit
    ⟨[⟨none, none, none, some "Easy", some 50, some false, []⟩], true⟩
    .failure (.success 200 none) rfl (by simp)).1

/-! ## C1: tier table and candidate filters -/

/-- C1: the difficulty filter sets that `get_personalized_problems`
derives from `total_solved` follow the tier table exactly, and the two
candidate pools are characterized as the non-paid problems of the
catalog whose difficulty lies in the respective set, with acceptance
rate above 40 for speed and below 60 for knowledge. -/
theorem tier_table_and_candidates (ts : Nat) :
    (ts < 50 → speed_difficulties ts = ["Easy"] ∧
      knowledge_difficulties ts = ["Easy", "Medium"]) ∧
    (50 ≤ ts → ts < 150 → speed_difficulties ts = ["Easy", "Medium"] ∧
      knowledge_difficulties ts = ["Medium"]) ∧
    (150 ≤ ts → ts < 300 → speed_difficulties ts = ["Medium"] ∧
      knowledge_difficulties ts = ["Medium", "Hard"]) ∧
    (300 ≤ ts → speed_difficulties ts = ["Medium", "Hard"] ∧
      knowledge_difficulties ts = ["Hard"]) ∧
    ∀ (problems : List Problem) (p : Problem),
      (p ∈ speed_candidates (free_problems problems) ts ↔
        p ∈ problems ∧ p.paidOnly = some false ∧
        (∃ d, p.difficulty = some d ∧ d ∈ speed_difficulties ts) ∧
        p.acRate.getD 0 > 40) ∧
      (p ∈ knowledge_candidates (free_problems problems) ts ↔
        p ∈ problems ∧ p.paidOnly = some false ∧
        (∃ d, p.difficulty = some d ∧ d ∈ knowledge_difficulties ts) ∧
        p.acRate.getD 0 < 60) := by
  refine ⟨?_, ?_, ?_, ?_, ?_⟩
  · intro h
    constructor <;> · simp only [speed_difficulties, knowledge_difficulties]
                      rw [if_pos h]
  · intro h1 h2
    constructor <;> · simp only [speed_difficulties, knowledge_difficulties]
                      rw [if_neg (by omega), if_pos h2]
  · intro h1 h2
    constructor <;> · simp only [speed_difficulties, knowledge_difficulties]
                      rw [if_neg (by omega), if_neg (by omega), if_pos h2]
  · intro h
    constructor <;> · simp only [speed_difficulties, knowledge_difficulties]
                      rw [if_neg (by omega), if_neg (by omega), if_neg (by omega)]
  · intro problems p
    have hfree : ∀ q : Problem, q ∈ free_problems problems ↔
        q ∈ problems ∧ q.paidOnly = some false := by
      intro q
      unfold free_problems
      rw [List.mem_filter, isFreeProblem_iff]
    have hdiff : ∀ (ds : List String),
        (p.difficulty.any fun d => ds.contains d) = true ↔
        ∃ d, p.difficulty = some d ∧ d ∈ ds := by
      intro ds
      rcases p.difficulty with _ | d
      · simp
      · simp [List.elem_iff]
    constructor
    · unfold speed_candidates
      rw [List.mem_filter, hfree, Bool.and_eq_true, hdiff, decide_eq_true_eq]
      tauto
    · unfold knowledge_candidates
      rw [List.mem_filter, hfree, Bool.and_eq_true, hdiff, decide_eq_true_eq]
      tauto

/-- C1 witness: the table at `total_solved = 10` and a one-problem
catalog whose entry is a free Easy problem with acceptance rate 50. -/
theorem tier_table_and_candidates_w :
    speed_difficulties 10 = ["Easy"] ∧
    knowledge_difficulties 10 = ["Easy", "Medium"] ∧
    (⟨none, none, none, some "Easy", some 50, some false, []⟩ : Problem) ∈
      speed_candidates
        (free_problems [⟨none, none, none, some "Easy", some 50, some false, []⟩]) 10 := by
  have h := tier_table_and_candidates 10
  have ht := h.1 (by decide)
  refine ⟨ht.1, ht.2, ?_⟩
  refine ((h.2.2.2.2 [⟨none, none, none, some "Easy", some 50, some false, []⟩]
      ⟨none, none, none, some "Easy", some 50, some false, []⟩).1).2 ?_
  refine ⟨by simp, rfl, ⟨"Easy", rfl, ?_⟩, by norm_num⟩
  rw [ht.1]
  simp

/-! ## C3 and C4: difficulty bounds and the fallback draw -/

/-- A free Hard problem with acceptance rate 10, used as a concrete
catalog entry. -/
def hardOnlyProblem : Problem :=
  ⟨some "hard-x", some "Hard X", some 2, some "Hard", some 10, some false, []⟩

/-- A free Easy problem with acceptance rate 50, used as a concrete
catalog entry. -/
def easyOnlyProblem : Problem :=
  ⟨some "easy-x", some "Easy X", some 1, some "Easy", some 50, some false, []⟩

/-- C3 counterexample: with `total_solved = 0 < 50` and a catalog whose
only entry is a free Hard problem, the speed candidate set is empty and
the fallback draw returns that Hard problem, so the speed problem can
have difficulty Hard. -/
theorem speed_fallback_returns_hard :
    get_personalized_problems [hardOnlyProblem] 0 0 0 =
      some (hardOnlyProblem, hardOnlyProblem) ∧
    hardOnlyProblem.difficulty = some "Hard" := by
  constructor
  · rfl
  · rfl

/-- C3 (amended): with `total_solved < 50` the speed problem has
difficulty Easy whenever the speed candidate set is non-empty; when that
set is empty the fallback draw from the full non-paid pool is taken and
may have any difficulty, including Hard. -/
theorem speed_easy_when_candidates_exist (problems : List Problem)
    (ts iS iK : Nat) (s k : Problem) (hts : ts < 50)
    (hcand : speed_candidates (free_problems problems) ts ≠ [])
    (h : get_personalized_problems problems ts iS iK = some (s, k)) :
    s.difficulty = some "Easy" := by
  have hp := (get_personalized_problems_eq_some h).1
  have hmem := pickFrom_mem_left hcand hp
  unfold speed_candidates at hmem
  rw [List.mem_filter, Bool.and_eq_true] at hmem
  have hany := hmem.2.1
  have htable : speed_difficulties ts = ["Easy"] := by
    simp only [speed_difficulties]
    rw [if_pos hts]
  rw [htable] at hany
  rcases hd : s.difficulty with _ | d
  · rw [hd] at hany
    simp at hany
  · rw [hd] at hany
    simp only [Option.any_some, List.contains_cons, List.contains_nil,
      Bool.or_false, beq_iff_eq] at hany
    rw [hany]

/-- C3 witness: with a one-entry catalog holding a free Easy problem of
acceptance rate 50 and `total_solved = 0`, the speed candidate set is
non-empty and the returned speed problem is that Easy problem. -/
theorem speed_easy_when_candidates_exist_w :
    (0 : Nat) < 50 ∧
    speed_candidates (free_problems [easyOnlyProblem]) 0 ≠ [] ∧
    easyOnlyProblem.difficulty = some "Easy" :=
  ⟨by decide, by decide,
   speed_easy_when_candidates_exist [easyOnlyProblem] 0 0 0
     easyOnlyProblem easyOnlyProblem (by decide) (by decide) (by decide)⟩

/-- C4 counterexample: with `total_solved = 300` and a catalog whose
only entry is a free Easy problem, the knowledge candidate set is empty
and the fallback draw returns that Easy problem, so the knowledge
problem can have difficulty Easy. -/
theorem knowledge_fallback_returns_easy :
    get_personalized_problems [easyOnlyProblem] 300 0 0 =
      some (easyOnlyProblem, easyOnlyProblem) ∧
    easyOnlyProblem.difficulty = some "Easy" := by
  constructor
  · rfl
  · rfl

/-- C4 (amended): with `total_solved >= 300` the knowledge problem has
difficulty Hard (in particular never Easy) whenever the knowledge
candidate set is non-empty; when that set is empty the fallback draw
from the full non-paid pool is taken and may have any difficulty,
including Easy. -/
theorem knowledge_hard_when_candidates_exist (problems : List Problem)
    (ts iS iK : Nat) (s k : Problem) (hts : 300 ≤ ts)
    (hcand : knowledge_candidates (free_problems problems) ts ≠ [])
    (h : get_personalized_problems problems ts iS iK = some (s, k)) :
    k.difficulty = some "Hard" := by
  have hp := (get_personalized_problems_eq_some h).2
  have hmem := pickFrom_mem_left hcand hp
  unfold knowledge_candidates at hmem
  rw [List.mem_filter, Bool.and_eq_true] at hmem
  have hany := hmem.2.1
  have htable : knowledge_difficulties ts = ["Hard"] := by
    simp only [knowledge_difficulties]
    rw [if_neg (by omega), if_neg (by omega), if_neg (by omega)]
  rw [htable] at hany
  rcases hd : k.difficulty with _ | d
  · rw [hd] at hany
    simp at hany
  · rw [hd] at hany
    simp only [Option.any_some, List.contains_cons, List.contains_nil,
      Bool.or_false, beq_iff_eq] at hany
    rw [hany]

/-- C4 witness: with a one-entry catalog holding a free Hard problem of
acceptance rate 10 and `total_solved = 300`, the knowledge candidate set
is non-empty and the returned knowledge problem is that Hard problem. -/
theorem knowledge_hard_when_candidates_exist_w :
    (300 : Nat) ≤ 300 ∧
    knowledge_candidates (free_problems [hardOnlyProblem]) 300 ≠ [] ∧
    hardOnlyProblem.difficulty = some "Hard" :=
  ⟨by decide, by decide,
   knowledge_hard_when_candidates_exist [hardOnlyProblem] 300 0 0
     hardOnlyProblem hardOnlyProblem (by decide) (by decide) (by decide)⟩

/-! ## C10: missing paid-only flag means excluded -/

theorem freePick_paidOnly {pool : List Problem} {i : Nat} {p : Problem}
    (h : (if (pool.filter isFreeProblem).isEmpty then none
          else listChoice (pool.filter isFreeProblem) i) = some p) :
    p.paidOnly = some false := by
  by_cases he : (pool.filter isFreeProblem).isEmpty
  · rw [if_pos he] at h
    cases h
  · rw [if_neg he] at h
    have hmem := listChoice_mem h
    have hfree := (List.mem_filter.mp hmem).2
    rwa [isFreeProblem_iff] at hfree

/-- C10: both the personalized selector and the random-problem selector
only ever return a problem whose paid-only flag is explicitly `false`;
an entry lacking the flag is treated as paid (the `dict.get` default is
`True`) and is excluded from every pool, the fallback pool included. -/
theorem returned_problems_explicitly_free :
    (∀ (problems : List Problem) (ts iS iK : Nat) (s k : Problem),
      get_personalized_problems problems ts iS iK = some (s, k) →
      s.paidOnly = some false ∧ k.paidOnly = some false) ∧
    (∀ (problems : List Problem) (d : Option String) (i : Nat) (p : Problem),
      get_random_problem problems d i = some p →
      p.paidOnly = some false) := by
  constructor
  · intro problems ts iS iK s k h
    obtain ⟨hs, hk⟩ := get_personalized_problems_eq_some h
    have hsf : s ∈ free_problems problems := by
      rcases pickFrom_mem hs with hmem | hmem
      · unfold speed_candidates at hmem
        exact (List.mem_filter.mp hmem).1
      · exact hmem
    have hkf : k ∈ free_problems problems := by
      rcases pickFrom_mem hk with hmem | hmem
      · unfold knowledge_candidates at hmem
        exact (List.mem_filter.mp hmem).1
      · exact hmem
    unfold free_problems at hsf hkf
    constructor
    · have := (List.mem_filter.mp hsf).2
      rwa [isFreeProblem_iff] at this
    · have := (List.mem_filter.mp hkf).2
      rwa [isFreeProblem_iff] at this
  · intro problems d i p h
    unfold get_random_problem at h
    by_cases h1 : problems.isEmpty
    · rw [if_pos h1] at h
      cases h
    · rw [if_neg h1] at h
      rcases d with _ | dstr
      · exact freePick_paidOnly h
      · by_cases h2 : (problems.filter
            (fun (q : Problem) => (q.difficulty.getD "").toUpper == dstr.toUpper)).isEmpty
        · simp only [h2, if_true] at h
          exact freePick_paidOnly h
        · simp only [h2, if_false] at h
          exact freePick_paidOnly h

/-- C10 witness: the selectors applied to a one-entry catalog whose
entry carries an explicit `paidOnly = false` flag. -/
theorem returned_problems_explicitly_free_w :
    get_personalized_problems [easyOnlyProblem] 0 0 0 =
      some (easyOnlyProblem, easyOnlyProblem) ∧
    get_random_problem [easyOnlyProblem] none 0 = some easyOnlyProblem ∧
    easyOnlyProblem.paidOnly = some false ∧
    easyOnlyProblem.paidOnly = some false :=
  ⟨by decide, by decide,
   (returned_problems_explicitly_free.1 [easyOnlyProblem] 0 0 0
     easyOnlyProblem easyOnlyProblem (by decide)).1,
   returned_problems_explicitly_free.2 [easyOnlyProblem] none 0
     easyOnlyProblem (by decide)⟩

/-! ## C8: extract_user_stats -/

/-- The value a difficulty component of the stats loop holds after the
list is processed: the count of the last record labelled `d`, or the
initial value when no record matches. -/
def lastCount (d : String) (l : List SubmissionRecord) (b : Nat) : Nat :=
  l.foldl (fun acc r => if r.difficulty == d then r.count else acc) b

theorem lastCount_nil (d : String) (b : Nat) : lastCount d [] b = b := rfl

theorem lastCount_cons (d : String) (r : SubmissionRecord)
    (t : List SubmissionRecord) (b : Nat) :
    lastCount d (r :: t) b =
      lastCount d t (if r.difficulty == d then r.count else b) := rfl

theorem foldl_statStep_eq (l : List SubmissionRecord) (a : Nat × Nat × Nat) :
    l.foldl statStep a =
      (lastCount "Easy" l a.1, lastCount "Medium" l a.2.1, lastCount "Hard" l a.2.2) := by
  induction l generalizing a with
  | nil => rfl
  | cons r t ih =>
      rw [List.foldl_cons, ih, lastCount_cons, lastCount_cons, lastCount_cons]
      by_cases h1 : r.difficulty = "Easy"
      · simp [statStep, beq_iff_eq, h1]
      · by_cases h2 : r.difficulty = "Medium"
        · simp [statStep, beq_iff_eq, h1, h2]
        · by_cases h3 : r.difficulty = "Hard"
          · simp [statStep, beq_iff_eq, h1, h2, h3]
          · simp [statStep, beq_iff_eq, h1, h2, h3]

theorem lastCount_of_no_match (d : String) (l : List SubmissionRecord) (b : Nat)
    (h : ∀ r ∈ l, ¬(r.difficulty == d) = true) : lastCount d l b = b := by
  induction l generalizing b with
  | nil => rfl
  | cons r t ih =>
      rw [lastCount_cons, if_neg (h r (by simp))]
      exact ih _ fun x hx => h x (by simp [hx])

theorem lastCount_eq_find? (d : String) (l : List SubmissionRecord) (b : Nat)
    (h : l.countP (fun r => r.difficulty == d) ≤ 1) :
    lastCount d l b = ((l.find? (fun r => r.difficulty == d)).map (·.count)).getD b := by
  induction l generalizing b with
  | nil => rfl
  | cons r t ih =>
      rw [List.countP_cons] at h
      by_cases h1 : (r.difficulty == d) = true
      · have hzero : t.countP (fun r => r.difficulty == d) = 0 := by
          rw [if_pos h1] at h
          omega
        have hnone := List.countP_eq_zero.mp hzero
        rw [lastCount_cons, if_pos h1, lastCount_of_no_match d t r.count hnone,
          List.find?_cons_of_pos (p := fun (x : SubmissionRecord) => x.difficulty == d) _ h1]
        rfl
      · rw [lastCount_cons, if_neg h1,
          List.find?_cons_of_neg (p := fun (x : SubmissionRecord) => x.difficulty == d) _ h1]
        exact ih b (by simpa [h1] using h)

theorem find?_eq_filter_head? (l : List SubmissionRecord)
    (p : SubmissionRecord → Bool) : l.find? p = (l.filter p).head? := by
  induction l with
  | nil => rfl
  | cons x t ih =>
      rcases h : p x with _ | _
      · rw [List.find?_cons_of_neg _ (by simp [h]),
          List.filter_cons_of_neg (by simp [h]), ih]
      · rw [List.find?_cons_of_pos _ h, List.filter_cons_of_pos h, List.head?_cons]

theorem perm_eq_of_length_le_one {l l' : List SubmissionRecord}
    (h : l.Perm l') (hl : l.length ≤ 1) : l = l' := by
  match l, h, hl with
  | [], h, _ => exact (h.nil_eq).symm ▸ rfl
  | [a], h, _ => exact List.singleton_perm.mp h

theorem find?_perm_of_countP_le_one {l l' : List SubmissionRecord}
    (p : SubmissionRecord → Bool) (hperm : l.Perm l') (h : l.countP p ≤ 1) :
    l.find? p = l'.find? p := by
  rw [find?_eq_filter_head?, find?_eq_filter_head?]
  rw [perm_eq_of_length_le_one (hperm.filter p)
    (by rw [← List.countP_eq_length_filter]; exact h)]

/-- C8: `extract_user_stats` takes, for each of Easy/Medium/Hard, the
count of the matching accepted-submission record when one is present and
0 otherwise (assuming each difficulty labels at most one record, which
is what makes "the" matching record well defined); the total is the sum
of the three; the result does not depend on the ordering of the record
list; and a missing or empty submission list yields all-zero counts. -/
theorem extract_user_stats_spec (raw : RawProfile)
    (hdup : ∀ d ∈ ["Easy", "Medium", "Hard"],
      (raw.acSubmissionNum.getD []).countP (fun r => r.difficulty == d) ≤ 1) :
    ((extract_user_stats raw).easy_solved =
      (((raw.acSubmissionNum.getD []).find?
        (fun r => r.difficulty == "Easy")).map (·.count)).getD 0 ∧
     (extract_user_stats raw).medium_solved =
      (((raw.acSubmissionNum.getD []).find?
        (fun r => r.difficulty == "Medium")).map (·.count)).getD 0 ∧
     (extract_user_stats raw).hard_solved =
      (((raw.acSubmissionNum.getD []).find?
        (fun r => r.difficulty == "Hard")).map (·.count)).getD 0) ∧
    (extract_user_stats raw).total_solved =
      (extract_user_stats raw).easy_solved + (extract_user_stats raw).medium_solved +
        (extract_user_stats raw).hard_solved ∧
    (∀ raw' : RawProfile, raw'.ranking = raw.ranking →
      (raw'.acSubmissionNum.getD []).Perm (raw.acSubmissionNum.getD []) →
      extract_user_stats raw' = extract_user_stats raw) ∧
    ((raw.acSubmissionNum = none ∨ raw.acSubmissionNum = some []) →
      extract_user_stats raw =
        { total_solved := 0, easy_solved := 0, medium_solved := 0,
          hard_solved := 0, ranking := raw.ranking }) := by
  have hcounts : ∀ rp : RawProfile,
      extract_user_stats rp =
        { total_solved := lastCount "Easy" (rp.acSubmissionNum.getD []) 0 +
            lastCount "Medium" (rp.acSubmissionNum.getD []) 0 +
            lastCount "Hard" (rp.acSubmissionNum.getD []) 0
          easy_solved := lastCount "Easy" (rp.acSubmissionNum.getD []) 0
          medium_solved := lastCount "Medium" (rp.acSubmissionNum.getD []) 0
          hard_solved := lastCount "Hard" (rp.acSubmissionNum.getD []) 0
          ranking := rp.ranking } := by
    intro rp
    simp only [extract_user_stats]
    rw [foldl_statStep_eq]
  refine ⟨⟨?_, ?_, ?_⟩, ?_, ?_, ?_⟩
  · rw [hcounts]
    exact lastCount_eq_find? _ _ _ (hdup "Easy" (by simp))
  · rw [hcounts]
    exact lastCount_eq_find? _ _ _ (hdup "Medium" (by simp))
  · rw [hcounts]
    exact lastCount_eq_find? _ _ _ (hdup "Hard" (by simp))
  · rw [hcounts]
  · intro raw' hrank hperm
    rw [hcounts, hcounts, hrank]
    have key : ∀ d ∈ ["Easy", "Medium", "Hard"],
        lastCount d (raw'.acSubmissionNum.getD []) 0 =
        lastCount d (raw.acSubmissionNum.getD []) 0 := by
      intro d hd
      have hc' : (raw'.acSubmissionNum.getD []).countP
          (fun r => r.difficulty == d) ≤ 1 := by
        rw [hperm.countP_eq]
        exact hdup d hd
      rw [lastCount_eq_find? _ _ _ hc', lastCount_eq_find? _ _ _ (hdup d hd),
        find?_perm_of_countP_le_one _ hperm hc']
    rw [key "Easy" (by simp), key "Medium" (by simp), key "Hard" (by simp)]
  · intro hempty
    rw [hcounts]
    rcases hempty with h0 | h0 <;> rw [h0] <;> rfl

/-- C8 witness: a two-record profile listing Hard before Easy still
yields `easy = 10`, `hard = 3`, `medium = 0`, `total = 13`. -/
theorem extract_user_stats_spec_w :
    extract_user_stats ⟨some [⟨"Hard", 3, 5⟩, ⟨"Easy", 10, 12⟩], some 1000⟩ =
      { total_solved := 13, easy_solved := 10, medium_solved := 0,
        hard_solved := 3, ranking := some 1000 } ∧
    (extract_user_stats ⟨some [⟨"Hard", 3, 5⟩, ⟨"Easy", 10, 12⟩], some 1000⟩).easy_solved =
      ((([⟨"Hard", 3, 5⟩, ⟨"Easy", 10, 12⟩] :
          List SubmissionRecord).find? (fun r => r.difficulty == "Easy")).map
        (·.count)).getD 0 :=
  ⟨by decide,
   (extract_user_stats_spec ⟨some [⟨"Hard", 3, 5⟩, ⟨"Easy", 10, 12⟩], some 1000⟩
     (by decide)).1.1⟩

/-! ## Dictionary lemmas -/

theorem dictInsert_cons_ne {t : List (Nat × α)} {a k : Nat} {b v : α}
    (h : (a == k) = false) :
    dictInsert ((a, b) :: t) k v = (a, b) :: dictInsert t k v := by
  unfold dictInsert
  rcases ht : t.any (fun p => p.1 == k) with _ | _
  · rw [if_neg (by simp [h, ht]), if_neg (by simp [ht])]
    rfl
  · rw [if_pos (by simp [ht]), if_pos (by simp [ht])]
    simp [h]
    intro hak
    exact absurd hak (by simpa using h)

theorem dictLookup_dictInsert_self (d : List (Nat × α)) (k : Nat) (v : α) :
    dictLookup (dictInsert d k v) k = some v := by
  induction d with
  | nil =>
      simp [dictInsert, dictLookup]
  | cons hd t ih =>
      obtain ⟨a, b⟩ := hd
      rcases ha : a == k with _ | _
      · rw [dictInsert_cons_ne ha]
        unfold dictLookup
        rw [List.find?_cons_of_neg _ (by simp [ha])]
        exact ih
      · unfold dictInsert
        rw [if_pos (by simp [ha])]
        unfold dictLookup
        rw [List.map_cons, if_pos ha,
          List.find?_cons_of_pos _ (by simp)]
        rfl

theorem eq_of_mem_dictInsert_key {d : List (Nat × α)} {k : Nat} {v w : α}
    (h : (k, w) ∈ dictInsert d k v) : w = v := by
  unfold dictInsert at h
  by_cases hany : (d.any (fun p => p.1 == k)) = true
  · rw [if_pos hany] at h
    rw [List.mem_map] at h
    obtain ⟨p, hp, heq⟩ := h
    by_cases hk : (p.1 == k) = true
    · rw [if_pos hk] at heq
      exact (Prod.mk.injEq .. ▸ heq).2.symm ▸ rfl
    · rw [if_neg hk] at heq
      exact absurd (by rw [heq]; exact beq_self_eq_true k) hk
  · rw [if_neg hany] at h
    rcases List.mem_append.mp h with hin | hin
    · exact absurd (List.any_eq_true.mpr ⟨(k, w), hin, beq_self_eq_true k⟩) hany
    · simpa using hin

/-! ## C2: same-day recommendation is an idempotent read -/

/-- C2: when a user already has a stored session whose date equals the
current date, the `/recommended2` handler replies with exactly the
stored session (its two problems and solved flags) and only records the
chat id: the session store, the profile store, and the service cache are
returned unchanged, and the result does not depend on the profile
response, the catalog fetch, or the random draws — no remote call is
consumed. -/
theorem recommend_same_day_idempotent (st : BotState) (uid : Nat)
    (today u : String) (rest : List String) (profileResp : Option RawProfile)
    (fetch : FetchResult) (iS iK : Nat) (d : DailySession)
    (hlook : dictLookup st.user_daily_problems uid = some d)
    (hdate : d.date = today) :
    get_recommended_problems st uid today (u :: rest) profileResp fetch iS iK =
      ({ st with user_chat_ids := setAdd st.user_chat_ids uid }, .existing d) := by
  simp [get_recommended_problems, hlook, hdate]

/-- C2 witness: a state holding a session for user 1 dated today. -/
theorem recommend_same_day_idempotent_w :
    get_recommended_problems
        ⟨[1], [(1, ⟨"2024-01-02", "alice", easyOnlyProblem, easyOnlyProblem, true, false⟩)],
         [], ⟨[], false⟩⟩
        1 "2024-01-02" ["alice"] none .failure 0 0 =
      (⟨[1], [(1, ⟨"2024-01-02", "alice", easyOnlyProblem, easyOnlyProblem, true, false⟩)],
        [], ⟨[], false⟩⟩,
       .existing ⟨"2024-01-02", "alice", easyOnlyProblem, easyOnlyProblem, true, false⟩) := by
  have h := recommend_same_day_idempotent
    ⟨[1], [(1, ⟨"2024-01-02", "alice", easyOnlyProblem, easyOnlyProblem, true, false⟩)],
     [], ⟨[], false⟩⟩
    1 "2024-01-02" "alice" [] none .failure 0 0
    ⟨"2024-01-02", "alice", easyOnlyProblem, easyOnlyProblem, true, false⟩
    (by decide) (by decide)
  rw [h]
  decide

/-! ## C9: mark solved with no active session -/

/-- C9: a valid `/solved` request from a user with no stored session, or
whose stored session is dated on another day, leaves the whole state
unchanged (no flag is set) and replies with the instruction to request a
recommendation first. -/
theorem mark_solved_no_active_session (st : BotState) (uid : Nat) (a : String)
    (rest : List String) (today : String)
    (harg : strLower a = "speed" ∨ strLower a = "knowledge")
    (hno : dictLookup st.user_daily_problems uid = none ∨
      ∃ d, dictLookup st.user_daily_problems uid = some d ∧ d.date ≠ today) :
    (mark_solved st uid (a :: rest) today).1 = st ∧
    ((mark_solved st uid (a :: rest) today).2 = .noSession ∨
     (mark_solved st uid (a :: rest) today).2 = .staleSession) := by
  have husage : (strLower a != "speed" && strLower a != "knowledge") = false := by
    rcases harg with h | h <;> simp [h]
  rcases hno with hnone | ⟨d, hsome, hdate⟩
  · have : mark_solved st uid (a :: rest) today = (st, .noSession) := by
      simp [mark_solved, husage, hnone]
    rw [this]
    exact ⟨rfl, Or.inl rfl⟩
  · have : mark_solved st uid (a :: rest) today = (st, .staleSession) := by
      simp [mark_solved, husage, hsome, hdate]
    rw [this]
    exact ⟨rfl, Or.inr rfl⟩

/-- C9 witness: the empty store, then a store whose only session is
dated yesterday. -/
theorem mark_solved_no_active_session_w :
    (mark_solved ⟨[], [], [], ⟨[], false⟩⟩ 1 ["speed"] "2024-01-02").1 =
      ⟨[], [], [], ⟨[], false⟩⟩ ∧
    ((mark_solved ⟨[], [], [], ⟨[], false⟩⟩ 1 ["speed"] "2024-01-02").2 =
        .noSession ∨
     (mark_solved ⟨[], [], [], ⟨[], false⟩⟩ 1 ["speed"] "2024-01-02").2 =
        .staleSession) :=
  mark_solved_no_active_session ⟨[], [], [], ⟨[], false⟩⟩ 1 "speed" [] "2024-01-02"
    (Or.inl (by decide)) (Or.inl (by decide))

/-! ## C7: a new date overwrites the stored session -/

/-- Stats extracted from `rawAlice`. -/
def aliceStats : UserStats := ⟨10, 10, 0, 0, some 1000⟩

/-- A concrete profile payload: 10 Easy accepted, ranking 1000. -/
def rawAlice : RawProfile := ⟨some [⟨"Easy", 10, 12⟩], some 1000⟩

/-- A stored session from the previous day, with the speed problem
already marked solved. -/
def sessionOld : DailySession :=
  ⟨"2024-01-01", "alice", easyOnlyProblem, easyOnlyProblem, true, false⟩

/-- The fresh session the handler builds on the new day. -/
def sessionNew : DailySession :=
  ⟨"2024-01-02", "alice", easyOnlyProblem, easyOnlyProblem, false, false⟩

/-- The state before the new-day request: one stored session dated
yesterday and a loaded one-problem catalog. -/
def stOld : BotState := ⟨[], [(1, sessionOld)], [], ⟨[easyOnlyProblem], true⟩⟩

/-- The state after the new-day request. -/
def stNew : BotState :=
  ⟨[1], [(1, sessionNew)], [(1, ("alice", aliceStats))], ⟨[easyOnlyProblem], true⟩⟩

/-- C7 counterexample: the session store is keyed by user id alone, so
after a successful recommendation on a new calendar date the earlier
date's session is gone from the store — it does not remain in memory,
contrary to the claim. -/
theorem old_session_destroyed_on_new_date :
    (get_recommended_problems stOld 1 "2024-01-02" ["alice"] (some rawAlice)
        .failure 0 0).1.user_daily_problems = [(1, sessionNew)] ∧
    sessionOld ≠ sessionNew ∧
    (1, sessionOld) ∉
      (get_recommended_problems stOld 1 "2024-01-02" ["alice"] (some rawAlice)
        .failure 0 0).1.user_daily_problems :=
  ⟨by decide, by decide, by decide⟩

/-- C7 (amended): when a recommendation succeeds on a date different
from the stored session's date, the handler overwrites the user's
single entry in the user-keyed store with the fresh session: future
lookups see the new session and the earlier date's session no longer
appears in the store. -/
theorem new_date_overwrites_user_entry (st : BotState) (uid : Nat)
    (today u : String) (rest : List String) (profileResp : Option RawProfile)
    (fetch : FetchResult) (iS iK : Nat) (old : DailySession) (st' : BotState)
    (s k : Problem)
    (hlook : dictLookup st.user_daily_problems uid = some old)
    (hdate : old.date ≠ today)
    (hrun : get_recommended_problems st uid today (u :: rest) profileResp fetch
        iS iK = (st', .fresh s k)) :
    st'.user_daily_problems =
      dictInsert st.user_daily_problems uid ⟨today, u, s, k, false, false⟩ ∧
    dictLookup st'.user_daily_problems uid =
      some ⟨today, u, s, k, false, false⟩ ∧
    (uid, old) ∉ st'.user_daily_problems := by
  simp only [get_recommended_problems, hlook] at hrun
  rw [if_neg (by simp [hdate])] at hrun
  unfold recommendFresh at hrun
  rcases profileResp with _ | raw
  · simp at hrun
  · simp only at hrun
    split at hrun
    · simp at hrun
    · rename_i s' k' hgp
      simp only [Prod.mk.injEq, RecOutcome.fresh.injEq] at hrun
      obtain ⟨hst, hs, hk⟩ := hrun
      subst hs
      subst hk
      have hstore : st'.user_daily_problems =
          dictInsert st.user_daily_problems uid ⟨today, u, s', k', false, false⟩ := by
        rw [← hst]
      refine ⟨hstore, ?_, ?_⟩
      · rw [hstore]
        exact dictLookup_dictInsert_self _ _ _
      · rw [hstore]
        intro hmem
        have := eq_of_mem_dictInsert_key hmem
        exact hdate (by rw [this])

/-- C7 amended-claim witness: the concrete new-day run from `stOld`. -/
theorem new_date_overwrites_user_entry_w :
    dictLookup stNew.user_daily_problems 1 = some sessionNew ∧
    (1, sessionOld) ∉ stNew.user_daily_problems := by
  have h := new_date_overwrites_user_entry stOld 1 "2024-01-02" "alice" []
    (some rawAlice) .failure 0 0 sessionOld stNew easyOnlyProblem easyOnlyProblem
    (by decide) (by decide) (by decide)
  exact ⟨h.2.1, h.2.2⟩
